import Mathlib

/-!
Shallow embedding of the cloud-quiz-battle session engine.

The definitions below translate the request handlers of the canonical server
variant (src/unnamed/part_001, the Redis-backed Express app); the in-memory
variants (src/server.js, src/unnamed/part_002) share the same create-room and
scoring code where the claims cite them.  The external key-value store holds at
most one JSON document per room code; a handler invocation is modelled as a
function from the stored document (an `Option Room`) to the HTTP response
together with the store content after the call (`setRoom` writes, otherwise the
stored document is returned unchanged).  JavaScript objects used as string
keyed maps (`scores`, `playerAnswers`, `currentQuestionAnswers`) are modelled
as association lists in insertion order, which matches JS property order for
these string keys.  Timestamps are milliseconds as `Nat`; `Math.floor(d/1000)`
on a non-negative difference is `Nat` division, and `Math.max(0, a - b)` on
naturals is truncated subtraction.
-/

/-- TIMER SETTINGS from part_001 line 16: `const QUESTION_TIME = 30`. -/
def QUESTION_TIME : Nat := 30

/-- TIMER SETTINGS from part_001 line 17: `const REVEAL_TIME = 5`. -/
def REVEAL_TIME : Nat := 5

/-- Room lifecycle status: 'waiting' | 'playing' | 'finished'. -/
inductive Status where
  | waiting
  | playing
  | finished
  deriving DecidableEq, Repr

/-- Phase within a playing session: 'waiting' | 'answering' | 'revealing'. -/
inductive Phase where
  | waiting
  | answering
  | revealing
  deriving DecidableEq, Repr

/-- One generated quiz question, as produced by the generation prompt:
`{question, options, correct, explanation}`. -/
structure Question where
  question : String
  options : List String
  correct : Nat
  explanation : String
  deriving DecidableEq, Repr

/-- The record pushed onto `room.playerAnswers[playerName]` by submit-answer
(part_001 lines 496-504). -/
structure AnswerRecord where
  questionIndex : Nat
  question : String
  playerAnswer : Nat
  correctAnswer : Nat
  options : List String
  explanation : String
  isCorrect : Bool
  deriving DecidableEq, Repr

/-- An entry of `room.players`: `{name, joinedAt}`. -/
structure Player where
  name : String
  joinedAt : Nat
  deriving DecidableEq, Repr

/-- The room document stored under `room:<code>` (part_001 lines 111-124 plus
the fields added by start-game). -/
structure Room where
  name : String
  isPublic : Bool
  players : List Player
  questions : List Question
  currentQuestion : Nat
  scores : List (String × Nat)
  playerAnswers : List (String × List AnswerRecord)
  status : Status
  phase : Phase
  questionStartTime : Nat
  revealStartTime : Nat
  currentQuestionAnswers : List (String × Nat)
  courseContent : String
  fileNames : List String
  createdAt : Nat
  lastUpdate : Nat
  deriving DecidableEq, Repr

/-- Lookup `m[k]` on a JS object modelled as an association list; `none`
models `undefined`. -/
def getEntry {α : Type} : List (String × α) → String → Option α
  | [], _ => none
  | p :: ps, k => if p.1 == k then some p.2 else getEntry ps k

/-- Assignment `m[k] = v` on a JS object modelled as an association list:
updates the existing key in place or appends a new one, matching JS property
order for string keys. -/
def setEntry {α : Type} : List (String × α) → String → α → List (String × α)
  | [], k, v => [(k, v)]
  | p :: ps, k, v => if p.1 == k then (k, v) :: ps else p :: setEntry ps k v

/-- JS truthiness of a numeric property read: `undefined` and `0` are falsy,
every other number is truthy.  This is the guard
`if (room.currentQuestionAnswers[playerName])` of part_001 line 485. -/
def jsTruthyNat : Option Nat → Bool
  | none => false
  | some v => v != 0

theorem getEntry_setEntry_self {α : Type} (m : List (String × α)) (k : String) (v : α) :
    getEntry (setEntry m k v) k = some v := by
  induction m with
  | nil => simp [getEntry, setEntry]
  | cons p ps ih =>
    by_cases h : p.1 == k
    · simp [getEntry, setEntry, h]
    · simp [getEntry, setEntry, h, ih]

theorem getEntry_setEntry_ne {α : Type} (m : List (String × α)) (k k' : String) (v : α)
    (h : k' ≠ k) : getEntry (setEntry m k v) k' = getEntry m k' := by
  induction m with
  | nil => simp [getEntry, setEntry, Ne.symm h]
  | cons p ps ih =>
    by_cases hp : p.1 = k
    · subst hp
      simp [getEntry, setEntry, Ne.symm h]
    · simp [getEntry, setEntry, hp, ih]

/-- Result of the join-room handler (part_001 lines 167-197). -/
inductive JoinView where
  | notFound
  | joined (players : List Player) (scores : List (String × Nat)) (status : Status)
  deriving DecidableEq, Repr

/-- Step `if (!room.players.find(p => p.name === playerName)) room.players.push(...)`
(part_001 lines 176-178 and 472-474). -/
def registerPlayers (players : List Player) (playerName : String) (now : Nat) : List Player :=
  if players.any (fun p => p.name == playerName) then players
  else players ++ [{ name := playerName, joinedAt := now }]

/-- Step `if (room.scores[playerName] === undefined) room.scores[playerName] = 0`
(part_001 lines 180-182 and 475-477). -/
def registerScores (scores : List (String × Nat)) (playerName : String) : List (String × Nat) :=
  match getEntry scores playerName with
  | none => setEntry scores playerName 0
  | some _ => scores

/-- Step `if (!room.playerAnswers[playerName]) room.playerAnswers[playerName] = []`
(part_001 lines 184-186 and 478-480); an array is always truthy in JS, so the
test is exactly "undefined". -/
def registerAnswers (answers : List (String × List AnswerRecord)) (playerName : String) :
    List (String × List AnswerRecord) :=
  match getEntry answers playerName with
  | none => setEntry answers playerName []
  | some _ => answers

/-- The lazy player-registration block shared by join-room (part_001 lines
176-186) and submit-answer (part_001 lines 472-480).  The source performs the
three mutations in sequence; each reads only a field the previous ones left
untouched, so the block equals this one-shot record update. -/
def registerPlayer (room : Room) (playerName : String) (now : Nat) : Room :=
  { room with
    players := registerPlayers room.players playerName now,
    scores := registerScores room.scores playerName,
    playerAnswers := registerAnswers room.playerAnswers playerName }

/-- POST /api/join-room/:roomCode (part_001 lines 167-197).  Second component
is the store content after the call. -/
def joinRoom (stored : Option Room) (playerName : String) (now : Nat) :
    JoinView × Option Room :=
  match stored with
  | none => (.notFound, none)
  | some room =>
    let r := registerPlayer room playerName now
    let r' := { r with lastUpdate := now }
    (.joined r'.players r'.scores r'.status, some r')

/-- Result of the submit-answer handler (part_001 lines 463-519). -/
inductive SubmitView where
  | cannotSubmit
  | alreadyAnswered
  | jsError
  | submitted (myAnswer : Nat) (scores : List (String × Nat))
  deriving DecidableEq, Repr

/-- The AnswerRecord pushed by submit-answer (part_001 lines 496-504). -/
def mkAnswerRecord (currentQuestion : Nat) (q : Question) (answerIndex : Nat) : AnswerRecord :=
  { questionIndex := currentQuestion
    question := q.question
    playerAnswer := answerIndex
    correctAnswer := q.correct
    options := q.options
    explanation := q.explanation
    isCorrect := answerIndex == q.correct }

/-- POST /api/submit-answer/:roomCode (part_001 lines 463-519).  The guard on
line 485 is the JS truthiness of `room.currentQuestionAnswers[playerName]`
(`jsTruthyNat`).  On the `alreadyAnswered` and error paths no `setRoom`
happens, so the store keeps the document as read; the in-memory registration
of `registerPlayer` is discarded. -/
def submitAnswer (stored : Option Room) (playerName : String) (answerIndex : Nat) (now : Nat) :
    SubmitView × Option Room :=
  match stored with
  | none => (.cannotSubmit, none)
  | some room =>
    if room.status ≠ .playing ∨ room.phase ≠ .answering then
      (.cannotSubmit, some room)
    else
      let r3 := registerPlayer room playerName now
      if jsTruthyNat (getEntry r3.currentQuestionAnswers playerName) then
        (.alreadyAnswered, some room)
      else
        match r3.questions[r3.currentQuestion]? with
        | none => (.jsError, some room)
        | some question =>
          let timeElapsed := (now - r3.questionStartTime) / 1000
          let timeLeft := QUESTION_TIME - timeElapsed
          let isCorrect := answerIndex == question.correct
          let cqa := setEntry r3.currentQuestionAnswers playerName answerIndex
          let r4 := { r3 with currentQuestionAnswers := cqa }
          let history := (getEntry r4.playerAnswers playerName).getD [] ++
            [mkAnswerRecord r4.currentQuestion question answerIndex]
          let r5 := { r4 with playerAnswers := setEntry r4.playerAnswers playerName history }
          let newScore := (getEntry r5.scores playerName).getD 0 + max 100 (timeLeft * 50)
          let r6 := if isCorrect then { r5 with scores := setEntry r5.scores playerName newScore }
            else r5
          let r7 := { r6 with lastUpdate := now }
          (.submitted answerIndex r7.scores, some r7)

/-- Response of GET /api/question/:roomCode (part_001 lines 384-460). -/
inductive QuestionView where
  | notFound
  | finishedView (scores : List (String × Nat))
  | statusOnly (status : Status)
  | jsError
  | answeringView (questionNum totalQuestions : Nat) (question : String) (options : List String)
      (timeLeft timeLimit : Nat) (scores : List (String × Nat))
  | revealingView (questionNum totalQuestions : Nat) (question : String) (options : List String)
      (correctAnswer : Nat) (explanation : String) (timeLeft : Nat) (scores : List (String × Nat))
  deriving DecidableEq, Repr

/-- The response building tail of the question handler (part_001 lines
428-459): read `questions[currentQuestion]` and render the answering view
(no correct answer, no explanation) or the revealing view (with both).
`jsError` models the TypeError thrown when the index is out of range. -/
def renderQuestion (room : Room) (now : Nat) : QuestionView :=
  match room.questions[room.currentQuestion]? with
  | none => .jsError
  | some question =>
    if room.phase = .answering then
      .answeringView (room.currentQuestion + 1) room.questions.length
        question.question question.options
        (QUESTION_TIME - (now - room.questionStartTime) / 1000) QUESTION_TIME room.scores
    else
      .revealingView (room.currentQuestion + 1) room.questions.length
        question.question question.options question.correct question.explanation
        (REVEAL_TIME - (now - room.revealStartTime) / 1000) room.scores

/-- GET /api/question/:roomCode (part_001 lines 384-460): the lazily evaluated
phase transitions followed by the view.  Second component is the store content
after the call (each transition branch performs a `setRoom`). -/
def getQuestion (stored : Option Room) (now : Nat) : QuestionView × Option Room :=
  match stored with
  | none => (.notFound, none)
  | some room =>
    if room.status = .finished then (.finishedView room.scores, some room)
    else if room.status ≠ .playing then (.statusOnly room.status, some room)
    else
      let timeElapsed := (now - room.questionStartTime) / 1000
      let r1 := if room.phase = .answering ∧ QUESTION_TIME ≤ timeElapsed then
                  { room with phase := .revealing, revealStartTime := now }
                else room
      if r1.phase = .revealing ∧ REVEAL_TIME ≤ (now - r1.revealStartTime) / 1000 then
        let r2 := { r1 with currentQuestion := r1.currentQuestion + 1,
                            currentQuestionAnswers := [] }
        if r2.questions.length ≤ r2.currentQuestion then
          let r3 := { r2 with status := .finished }
          (.finishedView r3.scores, some r3)
        else
          let r3 := { r2 with phase := .answering, questionStartTime := now }
          (renderQuestion r3 now, some r3)
      else
        (renderQuestion r1 now, some r1)

/-- The stored room after one evaluation of the question handler; on a found
room the handler always leaves some document in the store, so `getD` merely
extracts it. -/
def afterGetQuestion (room : Room) (now : Nat) : Room :=
  ((getQuestion (some room) now).2).getD room

/-- Response of GET /api/results/:roomCode/:playerName (part_001 lines
522-538). -/
inductive ResultsView where
  | notFound
  | results (scores : List (String × Nat)) (winner : String × Nat)
      (myAnswers : List AnswerRecord) (status : Status)
  deriving DecidableEq, Repr

/-- One insertion step of the descending-by-score sort. -/
def insertScoreDesc (x : String × Nat) : List (String × Nat) → List (String × Nat)
  | [] => [x]
  | y :: ys => if y.2 ≤ x.2 then x :: y :: ys else y :: insertScoreDesc x ys

/-- Models `Object.entries(room.scores).sort((a, b) => b[1] - a[1])` (part_001
line 530): a comparison sort of the score entries into descending score
order, written as a structurally recursive insertion sort so that it
evaluates inside the kernel. -/
def sortScoresDesc : List (String × Nat) → List (String × Nat)
  | [] => []
  | x :: xs => insertScoreDesc x (sortScoresDesc xs)

/-- GET /api/results/:roomCode/:playerName (part_001 lines 522-538):
the winner is the first sorted entry, defaulting to the pair ("No winner", 0)
when there are no score entries, and myAnswers is the entry of playerAnswers
for the requested player, defaulting to the empty list.  The handler never
writes the store. -/
def getResults (stored : Option Room) (playerName : String) : ResultsView :=
  match stored with
  | none => .notFound
  | some room =>
    let sortedScores := sortScoresDesc room.scores
    .results room.scores (sortedScores.headD ("No winner", 0))
      ((getEntry room.playerAnswers playerName).getD []) room.status

/-- Lower-case base-36 digit character, as used by `Number.toString(36)`:
0-9 then a-z. -/
def base36Char (d : Nat) : Char :=
  if d < 10 then Char.ofNat (48 + d) else Char.ofNat (87 + d)

/-- The character sequence of `x.toString(36)` for `0 <= x < 1`: `"0"` when
the fractional expansion is empty (x = 0), otherwise `"0."` followed by the
base-36 fractional digits.  JavaScript prints the shortest expansion, so the
digit list carries no trailing zeros; `digits` is that list. -/
def randomToString36 : List Nat → List Char
  | [] => ['0']
  | d :: ds => '0' :: '.' :: (d :: ds).map base36Char

/-- `String.prototype.substring(a, b)`: clamps to the string length. -/
def jsSubstring (s : List Char) (a b : Nat) : List Char :=
  (s.drop a).take (b - a)

/-- ASCII `toUpperCase` on one character. -/
def jsToUpperChar (c : Char) : Char :=
  if 'a' ≤ c ∧ c ≤ 'z' then Char.ofNat (c.toNat - 32) else c

/-- The room code of POST /api/create-room (part_001 line 110, identical in
src/server.js line 33 and part_002 line 21):
`Math.random().toString(36).substring(2, 8).toUpperCase()`, as a function of
the base-36 fractional digits of the random number. -/
def createRoomCode (digits : List Nat) : List Char :=
  (jsSubstring (randomToString36 digits) 2 8).map jsToUpperChar

/-- Response of POST /api/upload-content/:roomCode (part_001 lines 200-328). -/
inductive UploadView where
  | notFound
  | success (numQuestions : Nat)
  | generateFailed
  deriving DecidableEq, Repr

/-- POST /api/upload-content/:roomCode (part_001 lines 200-328) restricted to
the generation path the claim cites (no `useExisting` archive id, non-empty
content).  `genOutput` is the result of `JSON.parse` on the generation
service's output after code-fence stripping: `none` when the text is not
parseable JSON (the parse throws, the catch block answers 500 and no
`setRoom` runs, so the stored room is exactly as read); `some qs` is the
parsed `quizData.questions` array, which the handler spreads into `questions`
WITHOUT any schema validation of option count or correct-index range.
`shuffle` stands for the random permutation `questions.sort(() =>
Math.random() - 0.5)` of line 302.  The follow-up `saveQuiz` writes a
separate `quiz:` key and does not touch the room document, so it is elided. -/
def uploadContent (stored : Option Room) (content : String) (fileNames : List String)
    (genOutput : Option (List Question)) (shuffle : List Question → List Question)
    (now : Nat) : UploadView × Option Room :=
  match stored with
  | none => (.notFound, none)
  | some room =>
    match genOutput with
    | none => (.generateFailed, some room)
    | some qs =>
      let questions := shuffle qs
      let r1 := { room with courseContent := content, fileNames := fileNames,
                            questions := questions, lastUpdate := now }
      (.success questions.length, some r1)

/-- Schema validity of one generated question as required by the spec
(section 4.4): exactly 4 options and a correct index in [0,3].  Modelled from
the spec's words for comparison with what the handler actually checks. -/
def specWellFormedQuestion (q : Question) : Bool :=
  q.options.length == 4 && q.correct ≤ 3

/-- Whether a question-handler response carries the question text and
options, i.e. is one of the two per-phase question views. -/
def hasQuestionFields : QuestionView → Bool
  | .answeringView _ _ _ _ _ _ _ => true
  | .revealingView _ _ _ _ _ _ _ _ => true
  | _ => false

theorem insertScoreDesc_ne_nil (x : String × Nat) (l : List (String × Nat)) :
    insertScoreDesc x l ≠ [] := by
  cases l with
  | nil => simp [insertScoreDesc]
  | cons y ys =>
    by_cases h : y.2 ≤ x.2 <;> simp [insertScoreDesc, h]

theorem mem_insertScoreDesc (z x : String × Nat) (l : List (String × Nat)) :
    z ∈ insertScoreDesc x l ↔ z = x ∨ z ∈ l := by
  induction l with
  | nil => simp [insertScoreDesc]
  | cons y ys ih =>
    by_cases h : y.2 ≤ x.2
    · simp [insertScoreDesc, h]
    · simp [insertScoreDesc, h, ih]
      tauto

theorem mem_sortScoresDesc (z : String × Nat) (l : List (String × Nat)) :
    z ∈ sortScoresDesc l ↔ z ∈ l := by
  induction l with
  | nil => simp [sortScoresDesc]
  | cons x xs ih => simp [sortScoresDesc, mem_insertScoreDesc, ih]

theorem snd_le_headD_insertScoreDesc (x : String × Nat) (l : List (String × Nat))
    (d : String × Nat) : x.2 ≤ ((insertScoreDesc x l).headD d).2 := by
  cases l with
  | nil => simp [insertScoreDesc]
  | cons y ys =>
    by_cases h : y.2 ≤ x.2
    · simp [insertScoreDesc, h]
    · simp [insertScoreDesc, h]
      exact Nat.le_of_lt (Nat.lt_of_not_le h)

theorem headD_le_headD_insertScoreDesc (x : String × Nat) (l : List (String × Nat))
    (d : String × Nat) (hl : l ≠ []) :
    (l.headD d).2 ≤ ((insertScoreDesc x l).headD d).2 := by
  cases l with
  | nil => exact absurd rfl hl
  | cons y ys =>
    by_cases h : y.2 ≤ x.2
    · simp [insertScoreDesc, h]
    · simp [insertScoreDesc, h]

theorem sortScoresDesc_eq_nil_iff (l : List (String × Nat)) :
    sortScoresDesc l = [] ↔ l = [] := by
  cases l with
  | nil => simp [sortScoresDesc]
  | cons x xs => simp [sortScoresDesc, insertScoreDesc_ne_nil]

theorem snd_le_headD_sortScoresDesc (l : List (String × Nat)) (d : String × Nat) :
    ∀ z ∈ l, z.2 ≤ ((sortScoresDesc l).headD d).2 := by
  induction l with
  | nil => intro z hz; cases hz
  | cons x xs ih =>
    intro z hz
    simp only [sortScoresDesc]
    cases hz with
    | head => exact snd_le_headD_insertScoreDesc x (sortScoresDesc xs) d
    | tail _ hz =>
      have hne : sortScoresDesc xs ≠ [] := by
        rw [Ne, sortScoresDesc_eq_nil_iff]
        intro h
        subst h
        cases hz
      calc z.2 ≤ ((sortScoresDesc xs).headD d).2 := ih z hz
        _ ≤ ((insertScoreDesc x (sortScoresDesc xs)).headD d).2 :=
          headD_le_headD_insertScoreDesc x (sortScoresDesc xs) d hne

theorem headD_sortScoresDesc_mem (l : List (String × Nat)) (d : String × Nat)
    (hl : l ≠ []) : (sortScoresDesc l).headD d ∈ l := by
  have hne : sortScoresDesc l ≠ [] := by
    rw [Ne, sortScoresDesc_eq_nil_iff]; exact hl
  have hmem : (sortScoresDesc l).headD d ∈ sortScoresDesc l := by
    cases hsl : sortScoresDesc l with
    | nil => exact absurd hsl hne
    | cons a as => simp
  exact (mem_sortScoresDesc _ l).mp hmem

theorem registerScores_getEntry (s : List (String × Nat)) (n : String) :
    getEntry (registerScores s n) n = some ((getEntry s n).getD 0) := by
  unfold registerScores
  cases h : getEntry s n with
  | none => simp [getEntry_setEntry_self]
  | some v => simp [h]

theorem registerAnswers_getEntry (a : List (String × List AnswerRecord)) (n : String) :
    getEntry (registerAnswers a n) n = some ((getEntry a n).getD []) := by
  unfold registerAnswers
  cases h : getEntry a n with
  | none => simp [getEntry_setEntry_self]
  | some v => simp [h]

theorem registerPlayers_any (ps : List Player) (n : String) (t : Nat) :
    (registerPlayers ps n t).any (fun p => p.name == n) = true := by
  unfold registerPlayers
  cases h : ps.any (fun p => p.name == n) with
  | true => simp [h]
  | false => simp [h]

theorem registerPlayers_noop (ps : List Player) (n : String) (t : Nat)
    (h : ps.any (fun p => p.name == n) = true) : registerPlayers ps n t = ps := by
  unfold registerPlayers
  simp [h]

theorem registerScores_noop (s : List (String × Nat)) (n : String)
    (h : (getEntry s n).isSome = true) : registerScores s n = s := by
  unfold registerScores
  cases hs : getEntry s n with
  | none => rw [hs] at h; simp at h
  | some v => simp

theorem registerAnswers_noop (a : List (String × List AnswerRecord)) (n : String)
    (h : (getEntry a n).isSome = true) : registerAnswers a n = a := by
  unfold registerAnswers
  cases ha : getEntry a n with
  | none => rw [ha] at h; simp at h
  | some v => simp

theorem registerPlayer_noop (room : Room) (n : String) (t : Nat)
    (h1 : room.players.any (fun p => p.name == n) = true)
    (h2 : (getEntry room.scores n).isSome = true)
    (h3 : (getEntry room.playerAnswers n).isSome = true) :
    registerPlayer room n t = room := by
  unfold registerPlayer
  rw [registerPlayers_noop _ _ _ h1, registerScores_noop _ _ h2, registerAnswers_noop _ _ h3]

/-- A concrete well-formed question used by the concrete test rooms. -/
def exQuestion : Question :=
  { question := "Q?", options := ["a", "b", "c", "d"], correct := 0, explanation := "e" }

/-- A concrete playing room in the answering phase, as start-game leaves it:
one question, players A and B joined with zero scores and empty histories,
no answers yet for the current question. -/
def exRoom : Room :=
  { name := "R", isPublic := true,
    players := [{ name := "A", joinedAt := 0 }, { name := "B", joinedAt := 0 }],
    questions := [exQuestion], currentQuestion := 0,
    scores := [("A", 0), ("B", 0)],
    playerAnswers := [("A", []), ("B", [])],
    status := .playing, phase := .answering,
    questionStartTime := 0, revealStartTime := 0,
    currentQuestionAnswers := [],
    courseContent := "", fileNames := [], createdAt := 0, lastUpdate := 0 }

/-- `exRoom` after player A answered the current question with option index 0
(correct, scored 1500): `currentQuestionAnswers["A"] = 0`, one AnswerRecord. -/
def roomC1 : Room :=
  { exRoom with
    scores := [("A", 1500), ("B", 0)],
    playerAnswers := [("A", [mkAnswerRecord 0 exQuestion 0]), ("B", [])],
    currentQuestionAnswers := [("A", 0)] }

/-- `exRoom` in the revealing phase of its last (only) question. -/
def roomC4 : Room :=
  { exRoom with phase := .revealing, currentQuestionAnswers := [("A", 1)] }

/-- A parseable but schema-invalid generated question: one option instead of
four, correct index 9 instead of 0-3. -/
def badQuestion : Question :=
  { question := "Q?", options := ["A) only"], correct := 9, explanation := "e" }

/-- A freshly created waiting room with no questions. -/
def waitingRoom : Room :=
  { exRoom with status := .waiting, phase := .waiting, questions := [] }

/-- C1: the claim says a player already present in `currentQuestionAnswers`
always gets the duplicate-submission signal with score and history untouched,
for every chosen option index including 0.  The code's guard (part_001 line
485) is JS truthiness of `room.currentQuestionAnswers[playerName]`, and the
number 0 is falsy, so a player whose recorded answer is option index 0 is
treated as fresh: the resubmission is accepted, a second AnswerRecord for the
same question index is appended, and a correct answer is scored a second
time (1500 becomes 3000). -/
theorem C1_zero_index_resubmission_scored :
    getEntry roomC1.currentQuestionAnswers "A" = some 0 ∧
    (submitAnswer (some roomC1) "A" 0 0).1 ≠ .alreadyAnswered ∧
    ((getEntry ((submitAnswer (some roomC1) "A" 0 0).2.getD roomC1).playerAnswers "A").getD
      []).map (fun a => a.questionIndex) = [0, 0] ∧
    getEntry ((submitAnswer (some roomC1) "A" 0 0).2.getD roomC1).scores "A" = some 3000 := by
  decide

/-- C4 counterexample: a room in status playing for which the question
handler's response carries no question text or options.  In `roomC4` the
reveal window of the last question has elapsed, so the single evaluation at
t = 6000 advances past the question list, sets status finished and answers
with the terminal finished payload instead of a per-phase question view —
refuting "for every room in status playing, the response always contains the
current question's text and options". -/
theorem C4_counterexample_finish_boundary :
    roomC4.status = .playing ∧
    (afterGetQuestion roomC4 6000).status = .finished ∧
    hasQuestionFields (getQuestion (some roomC4) 6000).1 = false := by
  decide

/-- C5: the upload-content handler validates nothing beyond `JSON.parse`.
Unparseable output fails and leaves the stored room exactly as read (second
conjunct), but `badQuestion` — parseable JSON with one option and correct
index 9, rejected by the spec's schema — is stored into the room's question
list with a success response instead of failing with UpstreamFailure. -/
theorem C5_schema_not_validated :
    specWellFormedQuestion badQuestion = false ∧
    uploadContent (some waitingRoom) "text" ["notes.txt"] none id 7 =
      (.generateFailed, some waitingRoom) ∧
    (uploadContent (some waitingRoom) "text" ["notes.txt"] (some [badQuestion]) id 7).1 =
      .success 1 ∧
    ((uploadContent (some waitingRoom) "text" ["notes.txt"] (some [badQuestion]) id
      7).2.getD waitingRoom).questions = [badQuestion] := by
  decide

/-- C6: the claim says every room code has exactly 6 characters.  For
`Math.random() = 0.5` the base-36 expansion is the single digit 18 ("0.i"),
`substring(2, 8)` keeps only "i", and the code is the 1-character string "I"
— upper-case alphanumeric, but not of length 6. -/
theorem C6_room_code_can_be_short :
    createRoomCode [18] = ['I'] ∧ (createRoomCode [18]).length ≠ 6 := by
  decide

/-- C7: the repository wrapper is a bare GET/SETEX pair with no versioning
and no per-room lock, so two submit-answer handlers that read the same
stored snapshot lose an update.  Here both calls read `exRoom`: A's call is
accepted and scored (1500), but the store after B's later write — the
snapshot the system keeps — has A's score back at 0, A's history empty and
A absent from `currentQuestionAnswers`: A's accepted submission is silently
discarded, refuting the claimed atomic read-modify-write. -/
theorem C7_lost_update :
    (submitAnswer (some exRoom) "A" 0 0).1 = .submitted 0 [("A", 1500), ("B", 0)] ∧
    getEntry ((submitAnswer (some exRoom) "A" 0 0).2.getD exRoom).scores "A" = some 1500 ∧
    getEntry ((submitAnswer (some exRoom) "B" 1 0).2.getD exRoom).scores "A" = some 0 ∧
    (getEntry ((submitAnswer (some exRoom) "B" 1 0).2.getD exRoom).playerAnswers "A").getD
      [] = [] ∧
    jsTruthyNat (getEntry ((submitAnswer (some exRoom) "B" 1
      0).2.getD exRoom).currentQuestionAnswers "A") = false := by
  decide

theorem submitAnswer_accepted (r : Room) (name : String) (idx now : Nat) (q : Question)
    (hs : r.status = .playing) (hp : r.phase = .answering)
    (hq : r.questions[r.currentQuestion]? = some q)
    (hnew : jsTruthyNat (getEntry r.currentQuestionAnswers name) = false) :
    ∃ r', (submitAnswer (some r) name idx now).2 = some r' ∧
      (submitAnswer (some r) name idx now).1 = .submitted idx r'.scores ∧
      getEntry r'.scores name = some ((getEntry r.scores name).getD 0 +
        (if idx == q.correct
          then max 100 ((QUESTION_TIME - (now - r.questionStartTime) / 1000) * 50)
          else 0)) ∧
      getEntry r'.playerAnswers name =
        some ((getEntry r.playerAnswers name).getD [] ++ [mkAnswerRecord r.currentQuestion q idx]) := by
  have hcond : ¬(r.status ≠ Status.playing ∨ r.phase ≠ Phase.answering) := by
    simp [hs, hp]
  have hnew' : ¬(jsTruthyNat (getEntry (registerPlayer r name now).currentQuestionAnswers name) = true) := by
    show ¬(jsTruthyNat (getEntry r.currentQuestionAnswers name) = true)
    simp [hnew]
  have hq' : (registerPlayer r name now).questions[(registerPlayer r name now).currentQuestion]? = some q := hq
  simp only [submitAnswer]
  rw [if_neg hcond, if_neg hnew']
  simp only [hq', mkAnswerRecord]
  cases hc : idx == q.correct with
  | true =>
    simp only [hc, if_pos, registerPlayer]
    refine ⟨_, rfl, rfl, ?_, ?_⟩
    · rw [getEntry_setEntry_self, registerScores_getEntry]
      simp
    · rw [getEntry_setEntry_self, registerAnswers_getEntry]
      simp
  | false =>
    simp only [hc, Bool.false_eq_true, if_false, registerPlayer]
    refine ⟨_, rfl, rfl, ?_, ?_⟩
    · rw [registerScores_getEntry]
      simp
    · rw [getEntry_setEntry_self, registerAnswers_getEntry]
      simp

/-- C2: for every accepted submission in a playing room during the answering
phase, the score delta is `if correct then max 100 (timeLeft * 50) else 0`
with `timeLeft = max 0 (30 - floor(elapsedMs / 1000))`: a wrong answer adds
exactly 0, a correct answer adds exactly `max(MinimumPoints = 100,
floor(timeLeft * PointsPerSecond = 50))`, which is at least 100 and hence
strictly greater than every wrong answer's award. -/
theorem C2_scoring (r : Room) (name : String) (idx now : Nat) (q : Question)
    (hs : r.status = .playing) (hp : r.phase = .answering)
    (hq : r.questions[r.currentQuestion]? = some q)
    (hnew : jsTruthyNat (getEntry r.currentQuestionAnswers name) = false) :
    ∃ r', (submitAnswer (some r) name idx now).2 = some r' ∧
      getEntry r'.scores name = some ((getEntry r.scores name).getD 0 +
        (if idx == q.correct
          then max 100 ((QUESTION_TIME - (now - r.questionStartTime) / 1000) * 50)
          else 0)) ∧
      ((idx == q.correct) = false →
        (if idx == q.correct
          then max 100 ((QUESTION_TIME - (now - r.questionStartTime) / 1000) * 50)
          else (0 : Nat)) = 0) ∧
      ((idx == q.correct) = true →
        100 ≤ if idx == q.correct
          then max 100 ((QUESTION_TIME - (now - r.questionStartTime) / 1000) * 50)
          else (0 : Nat)) := by
  obtain ⟨r', h2, -, hsc, -⟩ := submitAnswer_accepted r name idx now q hs hp hq hnew
  refine ⟨r', h2, hsc, ?_, ?_⟩
  · intro h
    simp [h]
  · intro h
    simp [h]

/-- Witness for C2: in `exRoom`, player A answers index 0 (correct) at the
question start; the stored score becomes 0 + max 100 (30 * 50) = 1500. -/
theorem C2_scoring_witness :
    getEntry ((submitAnswer (some exRoom) "A" 0 0).2.getD exRoom).scores "A" = some 1500 := by
  obtain ⟨r', h2, hsc, -, -⟩ :=
    C2_scoring exRoom "A" 0 0 exQuestion (by decide) (by decide) (by decide) (by decide)
  rw [h2, Option.getD_some, hsc]
  decide

/-- C10: a submission arriving after the answer window elapsed, while the
stored phase is still answering (no view call has resolved the boundary), is
accepted rather than rejected: the response is `submitted`, the time left is
clamped to 0, an AnswerRecord is appended, and a correct answer earns
exactly the minimum floor of 100 points. -/
theorem C10_late_submission_accepted (r : Room) (name : String) (idx now : Nat) (q : Question)
    (hs : r.status = .playing) (hp : r.phase = .answering)
    (hq : r.questions[r.currentQuestion]? = some q)
    (hnew : jsTruthyNat (getEntry r.currentQuestionAnswers name) = false)
    (hlate : QUESTION_TIME ≤ (now - r.questionStartTime) / 1000) :
    ∃ r', (submitAnswer (some r) name idx now).2 = some r' ∧
      (submitAnswer (some r) name idx now).1 = .submitted idx r'.scores ∧
      QUESTION_TIME - (now - r.questionStartTime) / 1000 = 0 ∧
      getEntry r'.playerAnswers name =
        some ((getEntry r.playerAnswers name).getD [] ++ [mkAnswerRecord r.currentQuestion q idx]) ∧
      ((idx == q.correct) = true →
        getEntry r'.scores name = some ((getEntry r.scores name).getD 0 + 100)) := by
  obtain ⟨r', h2, h1, hsc, hhist⟩ := submitAnswer_accepted r name idx now q hs hp hq hnew
  have hzero : QUESTION_TIME - (now - r.questionStartTime) / 1000 = 0 :=
    Nat.sub_eq_zero_of_le hlate
  refine ⟨r', h2, h1, hzero, hhist, ?_⟩
  intro hc
  rw [hsc]
  simp [hc, hzero]

/-- Witness for C10: in `exRoom` at t = 31000 ms (31 s elapsed of a 30 s
window, phase still answering) player A's correct answer is accepted and
scores exactly the minimum 100 points. -/
theorem C10_late_submission_witness :
    getEntry ((submitAnswer (some exRoom) "A" 0 31000).2.getD exRoom).scores "A" = some 100 := by
  obtain ⟨r', h2, -, -, -, hsc⟩ :=
    C10_late_submission_accepted exRoom "A" 0 31000 exQuestion
      (by decide) (by decide) (by decide) (by decide) (by decide)
  rw [h2, Option.getD_some, hsc (by decide)]
  decide

/-- C8: join-room is idempotent for a player who is already in the room.
After any successful join of `name` (which is exactly how a name becomes
present in `players`), a second join-room call for the same name succeeds,
returns the unchanged player list and scores, and leaves the players list,
the scores mapping and the playerAnswers mapping of the stored room
unchanged — in particular a rejoining player's accumulated score is not
reset to 0. -/
theorem C8_join_idempotent (r : Room) (name : String) (t1 t2 : Nat) :
    ∃ r1, (joinRoom (some r) name t1).2 = some r1 ∧
      (joinRoom (some r1) name t2).1 = .joined r1.players r1.scores r1.status ∧
      ∃ r2, (joinRoom (some r1) name t2).2 = some r2 ∧
        r2.players = r1.players ∧ r2.scores = r1.scores ∧
        r2.playerAnswers = r1.playerAnswers := by
  refine ⟨{ registerPlayer r name t1 with lastUpdate := t1 }, rfl, ?_, ?_⟩
  all_goals
    have h1 : ({ registerPlayer r name t1 with lastUpdate := t1 } : Room).players.any
        (fun p => p.name == name) = true := registerPlayers_any r.players name t1
  all_goals
    have h2 : (getEntry ({ registerPlayer r name t1 with lastUpdate := t1 } : Room).scores
        name).isSome = true := by
      show (getEntry (registerScores r.scores name) name).isSome = true
      rw [registerScores_getEntry]
      rfl
  all_goals
    have h3 : (getEntry ({ registerPlayer r name t1 with lastUpdate := t1 } : Room).playerAnswers
        name).isSome = true := by
      show (getEntry (registerAnswers r.playerAnswers name) name).isSome = true
      rw [registerAnswers_getEntry]
      rfl
  all_goals
    have hnoop := registerPlayer_noop { registerPlayer r name t1 with lastUpdate := t1 }
      name t2 h1 h2 h3
  · show JoinView.joined (registerPlayer { registerPlayer r name t1 with lastUpdate := t1 }
        name t2).players _ _ = _
    rw [hnoop]
  · refine ⟨{ registerPlayer { registerPlayer r name t1 with lastUpdate := t1 } name t2 with
        lastUpdate := t2 }, rfl, ?_, ?_, ?_⟩ <;> rw [hnoop]

/-- C9: get-results never fails for an existing room, whatever the player
name: it returns the room's scores, as winner the head of the descending
sort of the score entries — an entry whose score bounds every entry's score,
and a member of the scores when they are non-empty — and the named player's
answer history, which defaults to the empty sequence when the player has no
recorded answers. -/
theorem C9_results_total (r : Room) (name : String) :
    getResults (some r) name =
      .results r.scores ((sortScoresDesc r.scores).headD ("No winner", 0))
        ((getEntry r.playerAnswers name).getD []) r.status ∧
    (∀ e ∈ r.scores, e.2 ≤ ((sortScoresDesc r.scores).headD ("No winner", 0)).2) ∧
    (r.scores ≠ [] → (sortScoresDesc r.scores).headD ("No winner", 0) ∈ r.scores) ∧
    (getEntry r.playerAnswers name = none → (getEntry r.playerAnswers name).getD [] = []) := by
  refine ⟨rfl, snd_le_headD_sortScoresDesc r.scores ("No winner", 0),
    fun h => headD_sortScoresDesc_mem r.scores ("No winner", 0) h, fun h => ?_⟩
  rw [h]
  rfl

/-- Witness for C9 at a concrete room and a player name that never joined:
the winner entry returned for `exRoom` is one of its score entries. -/
theorem C9_results_witness :
    (sortScoresDesc exRoom.scores).headD ("No winner", 0) ∈ exRoom.scores :=
  (C9_results_total exRoom "ghost").2.2.1 (by decide)

/-- C3: one evaluation of the question handler resolves at most one phase
boundary.  From the answering phase with the window elapsed, the call moves
to revealing and stamps `revealStartTime = now` — and because the reveal
clock then reads 0, the same call never also advances the question: from
answering, `currentQuestion` and `currentQuestionAnswers` are always left
as they were.  From the revealing phase with the reveal window elapsed, the
call increments `currentQuestion` by exactly 1 and clears
`currentQuestionAnswers`.  Catching up over a long gap therefore takes one
call per boundary. -/
theorem C3_one_boundary_per_call (r : Room) (now : Nat) (hs : r.status = .playing) :
    (r.phase = .answering →
      (afterGetQuestion r now).currentQuestion = r.currentQuestion ∧
      (afterGetQuestion r now).currentQuestionAnswers = r.currentQuestionAnswers) ∧
    (r.phase = .answering → QUESTION_TIME ≤ (now - r.questionStartTime) / 1000 →
      (afterGetQuestion r now).phase = .revealing ∧
      (afterGetQuestion r now).revealStartTime = now ∧
      (afterGetQuestion r now).status = .playing) ∧
    (r.phase = .revealing → REVEAL_TIME ≤ (now - r.revealStartTime) / 1000 →
      (afterGetQuestion r now).currentQuestion = r.currentQuestion + 1 ∧
      (afterGetQuestion r now).currentQuestionAnswers = []) := by
  have hnf : ¬(r.status = Status.finished) := by rw [hs]; intro h; cases h
  have hnp : ¬(r.status ≠ Status.playing) := by rw [hs]; simp
  refine ⟨?_, ?_, ?_⟩
  · intro hph
    by_cases hcross : QUESTION_TIME ≤ (now - r.questionStartTime) / 1000
    · simp [afterGetQuestion, getQuestion, hnf, hnp, hph, hcross, Nat.sub_self, REVEAL_TIME]
    · simp [afterGetQuestion, getQuestion, hnf, hnp, hph, hcross]
  · intro hph hcross
    simp [afterGetQuestion, getQuestion, hnf, hnp, hph, hcross, hs, Nat.sub_self, REVEAL_TIME]
  · intro hph hrev
    by_cases hfin : r.questions.length ≤ r.currentQuestion + 1
    · simp [afterGetQuestion, getQuestion, hnf, hnp, hph, hrev, hfin]
    · simp [afterGetQuestion, getQuestion, hnf, hnp, hph, hrev, hfin]

/-- Witness for C3 at a concrete room: in `exRoom` (answering, window started
at 0) a single call at t = 31000 ms crosses the answer boundary: the phase
becomes revealing with `revealStartTime = 31000`, and the question index is
unchanged. -/
theorem C3_one_boundary_witness :
    (afterGetQuestion exRoom 31000).phase = .revealing ∧
    (afterGetQuestion exRoom 31000).revealStartTime = 31000 ∧
    (afterGetQuestion exRoom 31000).currentQuestion = exRoom.currentQuestion := by
  have h := C3_one_boundary_per_call exRoom 31000 (by decide)
  exact ⟨(h.2.1 (by decide) (by decide)).1, (h.2.1 (by decide) (by decide)).2.1,
    (h.1 (by decide)).1⟩

theorem getQuestion_still_playing (r : Room) (now : Nat) (hs : r.status = .playing)
    (hidx : r.currentQuestion < r.questions.length)
    (hstill : (afterGetQuestion r now).status = .playing) :
    (getQuestion (some r) now).1 = renderQuestion (afterGetQuestion r now) now ∧
    (afterGetQuestion r now).currentQuestion < (afterGetQuestion r now).questions.length := by
  have hnf : ¬(r.status = Status.finished) := by rw [hs]; intro h; cases h
  have hnp : ¬(r.status ≠ Status.playing) := by rw [hs]; simp
  by_cases hc1 : r.phase = Phase.answering ∧ QUESTION_TIME ≤ (now - r.questionStartTime) / 1000
  · constructor
    · simp [afterGetQuestion, getQuestion, hnf, hnp, hc1.1, hc1.2, Nat.sub_self, REVEAL_TIME]
    · simpa [afterGetQuestion, getQuestion, hnf, hnp, hc1.1, hc1.2, Nat.sub_self,
        REVEAL_TIME] using hidx
  · by_cases hc2 : r.phase = Phase.revealing ∧ REVEAL_TIME ≤ (now - r.revealStartTime) / 1000
    · by_cases hfin : r.questions.length ≤ r.currentQuestion + 1
      · exfalso
        have hfinished : (afterGetQuestion r now).status = Status.finished := by
          simp [afterGetQuestion, getQuestion, hnf, hnp, hc1, hc2.1, hc2.2, hfin]
        rw [hstill] at hfinished
        cases hfinished
      · constructor
        · simp [afterGetQuestion, getQuestion, hnf, hnp, hc1, hc2.1, hc2.2, hfin]
        · simpa [afterGetQuestion, getQuestion, hnf, hnp, hc1, hc2.1, hc2.2, hfin] using
            Nat.lt_of_not_le hfin
    · constructor
      · simp [afterGetQuestion, getQuestion, hnf, hnp, hc1, hc2]
      · simpa [afterGetQuestion, getQuestion, hnf, hnp, hc1, hc2] using hidx

/-- C4 (amended): for a playing room whose current index is in range and for
which the evaluation leaves the room still playing, the response is the
per-phase view of the resolved room state: it always carries the question
text, the options and the remaining time `max(0, window - elapsed)` of the
resolved phase, and it carries the correct index and the explanation exactly
when the resolved phase is revealing — the answering view has no such
fields.  (When the evaluation instead crosses the final reveal boundary the
handler returns the terminal finished payload; see the counterexample.) -/
theorem C4_view_fields (r : Room) (now : Nat) (hs : r.status = .playing)
    (hidx : r.currentQuestion < r.questions.length)
    (hstill : (afterGetQuestion r now).status = .playing) :
    ∃ q, (afterGetQuestion r now).questions[(afterGetQuestion r now).currentQuestion]? =
        some q ∧
      ((afterGetQuestion r now).phase = .answering →
        (getQuestion (some r) now).1 =
          .answeringView ((afterGetQuestion r now).currentQuestion + 1)
            (afterGetQuestion r now).questions.length q.question q.options
            (QUESTION_TIME - (now - (afterGetQuestion r now).questionStartTime) / 1000)
            QUESTION_TIME (afterGetQuestion r now).scores) ∧
      ((afterGetQuestion r now).phase = .revealing →
        (getQuestion (some r) now).1 =
          .revealingView ((afterGetQuestion r now).currentQuestion + 1)
            (afterGetQuestion r now).questions.length q.question q.options
            q.correct q.explanation
            (REVEAL_TIME - (now - (afterGetQuestion r now).revealStartTime) / 1000)
            (afterGetQuestion r now).scores) := by
  obtain ⟨hview, hlt⟩ := getQuestion_still_playing r now hs hidx hstill
  refine ⟨(afterGetQuestion r now).questions[(afterGetQuestion r now).currentQuestion],
    List.getElem?_eq_getElem hlt, ?_, ?_⟩
  · intro hph
    rw [hview]
    simp [renderQuestion, List.getElem?_eq_getElem hlt, hph]
  · intro hph
    rw [hview]
    simp [renderQuestion, List.getElem?_eq_getElem hlt, hph]

/-- Witness for C4: a mid-window call on `exRoom` at t = 1000 ms returns the
answering view with the question text, the options, 29 seconds left and no
correct-answer fields. -/
theorem C4_view_fields_witness :
    (getQuestion (some exRoom) 1000).1 =
      .answeringView 1 1 exQuestion.question exQuestion.options 29 QUESTION_TIME
        exRoom.scores := by
  obtain ⟨q, hq, hans, -⟩ := C4_view_fields exRoom 1000 (by decide) (by decide) (by decide)
  have hqe : some q = some exQuestion := by rw [← hq]; decide
  injection hqe with hqe
  subst hqe
  rw [hans (by decide)]
  decide
